import Mathlib

/-!  Shallow embedding of `src/01_coordinate_collector.py` (class
`CoordinateCollector`) of the satellite-coordinates-automation-scripts
repository.

Modelling conventions:
* Python floats are modelled as exact rationals `ℚ` (no overflow, `inf`,
  `nan` or binary rounding); `float(str)` parsing of finite decimal
  literals is `pyFloat`, Python's `repr`/`str` of such a value is
  `pyRepr` (positional decimal form; CPython's switch to exponent
  notation for very small/large magnitudes is not modelled), and the
  `f"{x:.4f}"` format is `fmt4` (round half to even on the exact value).
* Python strings are Lean `String` / `List Char`; `input()` prompts are
  passed as explicit parameters.
* The JSON file is modelled at the level of parsed JSON documents
  (`JVal`, insertion-ordered objects, numbers as `ℚ`); the file system
  state (`FileState`) distinguishes an absent file, a file whose
  contents fail to parse as JSON, and a parsed document.
* A Python call that raises an uncaught exception is modelled by
  `Option.none`.
-/

/-- Python `str.split()` (split on runs of whitespace, dropping empty
pieces): accumulator-based worker.  `acc` holds the current word,
reversed. -/
def splitWsAux : List Char → List Char → List (List Char)
  | [], acc => if acc.isEmpty then [] else [acc.reverse]
  | c :: cs, acc =>
    if c.isWhitespace then
      if acc.isEmpty then splitWsAux cs [] else acc.reverse :: splitWsAux cs []
    else splitWsAux cs (c :: acc)

/-- Python `str.split()` with no separator argument. -/
def splitWs (s : List Char) : List (List Char) := splitWsAux s []

/-- Longest prefix of decimal digits, together with the remainder: the
action of a greedy `\d+` regex atom. -/
def takeDigits : List Char → List Char × List Char
  | [] => ([], [])
  | c :: cs =>
    if c.isDigit then
      let p := takeDigits cs
      (c :: p.1, p.2)
    else ([], c :: cs)

/-- Numeric value of a decimal digit character. -/
def digitVal (c : Char) : Nat := c.toNat - '0'.toNat

/-- Value of a most-significant-first decimal digit string, as computed
by Python `int(...)` on a digit-only string. -/
def digitsToNat (l : List Char) : Nat := l.foldl (fun a c => 10 * a + digitVal c) 0

/-- Python `str.strip()`: remove leading and trailing whitespace. -/
def stripChars (s : List Char) : List Char :=
  ((s.dropWhile Char.isWhitespace).reverse.dropWhile Char.isWhitespace).reverse

/-- Python `str.split(',')` worker; `acc` holds the current field,
reversed.  Splitting on an explicit separator keeps empty fields. -/
def splitCommaAux : List Char → List Char → List (List Char)
  | [], acc => [acc.reverse]
  | c :: cs, acc =>
    if c = ',' then acc.reverse :: splitCommaAux cs []
    else splitCommaAux cs (c :: acc)

/-- Python `str.split(',')`. -/
def splitComma (s : List Char) : List (List Char) := splitCommaAux s []

/-- Python `','.join(...)` on character lists. -/
def joinComma : List (List Char) → List Char
  | [] => []
  | [p] => p
  | p :: ps => p ++ ',' :: joinComma ps

/-- Decimal digit characters of `n`, most significant first, via a fuel
argument to keep the recursion structural (`fuel ≥ n` suffices). -/
def natDigitsAux : Nat → Nat → List Char
  | 0, _ => []
  | fuel + 1, n =>
    if n = 0 then [] else natDigitsAux fuel (n / 10) ++ [Nat.digitChar (n % 10)]

/-- Decimal numeral of a natural number (Python `str(n)` for `n ≥ 0`). -/
def natRepr (n : Nat) : List Char :=
  if n = 0 then ['0'] else natDigitsAux n n

/-- Left-pad a digit string with `'0'` up to width `k`. -/
def padLeftZeros (l : List Char) (k : Nat) : List Char :=
  List.replicate (k - l.length) '0' ++ l

/-- Least `k ≤ fuel + start` (counting up from `start`) with
`10 ^ k % b = 0`. -/
def decExpAux (b : Nat) : Nat → Nat → Option Nat
  | 0, k => if 10 ^ k % b = 0 then some k else none
  | fuel + 1, k => if 10 ^ k % b = 0 then some k else decExpAux b fuel (k + 1)

/-- Least `k` with `b ∣ 10 ^ k`, when one exists below `b + 1` (it does
whenever `b = 2^i * 5^j`, in particular for every denominator produced
by decimal parsing). -/
def decExp (b : Nat) : Option Nat := decExpAux b b 0

/-- Python `repr`/`str`/f-string rendering of a float value, modelled on
exact decimal fractions: the shortest positional decimal form, with a
trailing `.0` for integral values (the fallback branch is never reached
for values produced by decimal parsing). -/
def pyRepr (q : ℚ) : String :=
  let sgn := if q.num < 0 then "-" else ""
  match decExp q.den with
  | some k =>
    let n := q.num.natAbs * 10 ^ k / q.den
    if k = 0 then sgn ++ String.mk (natRepr n) ++ ".0"
    else
      sgn ++ String.mk (natRepr (n / 10 ^ k)) ++ "." ++
        String.mk (padLeftZeros (natRepr (n % 10 ^ k)) k)
  | none => sgn ++ String.mk (natRepr q.num.natAbs) ++ "/" ++ String.mk (natRepr q.den)

/-- Round `a / b` (for `b > 0`) to the nearest natural number, ties to
even (Python/IEEE rounding of an exactly representable half). -/
def rndHalfEvenND (a b : Nat) : Nat :=
  if 2 * (a % b) < b then a / b
  else if b < 2 * (a % b) then a / b + 1
  else if (a / b) % 2 = 0 then a / b else a / b + 1

/-- Python `f"{x:.4f}"` on the exact rational model: round `|x| * 10^4`
half to even and print with four decimals, restoring the sign. -/
def fmt4 (q : ℚ) : String :=
  let n := rndHalfEvenND (q.num.natAbs * 10000) q.den
  (if q.num < 0 then "-" else "") ++ String.mk (natRepr (n / 10000)) ++ "." ++
    String.mk (padLeftZeros (natRepr (n % 10000)) 4)

/-- Unsigned decimal mantissa of a Python float literal:
`digits [ '.' digits* ]` or `'.' digits+`; returns the value and the
remaining characters. -/
def parseUDec (s : List Char) : Option (ℚ × List Char) :=
  let ip := takeDigits s
  match ip.2 with
  | '.' :: r2 =>
    let fp := takeDigits r2
    if ip.1.isEmpty ∧ fp.1.isEmpty then none
    else some ((digitsToNat ip.1 : ℚ) + (digitsToNat fp.1 : ℚ) / (10 ^ fp.1.length : ℚ), fp.2)
  | _ => if ip.1.isEmpty then none else some ((digitsToNat ip.1 : ℚ), ip.2)

/-- Python `float(str)` on finite decimal literals: optional surrounding
whitespace, optional sign, decimal mantissa, optional `e`/`E` exponent.
(`inf`/`nan` and digit-group underscores are not modelled.)  `none`
models a raised `ValueError`. -/
def pyFloat (s : String) : Option ℚ :=
  let t := stripChars s.data
  let sr : ℚ × List Char :=
    match t with
    | '+' :: r => (1, r)
    | '-' :: r => (-1, r)
    | r => (1, r)
  match parseUDec sr.2 with
  | none => none
  | some (m, r1) =>
    match r1 with
    | [] => some (sr.1 * m)
    | c :: r2 =>
      if c = 'e' ∨ c = 'E' then
        let er : ℤ × List Char :=
          match r2 with
          | '+' :: r3 => (1, r3)
          | '-' :: r3 => (-1, r3)
          | r3 => (1, r3)
        let ed := takeDigits er.2
        if ed.1.isEmpty ∨ ¬ ed.2.isEmpty then none
        else some (sr.1 * m * (10 : ℚ) ^ (er.1 * (digitsToNat ed.1 : ℤ)))
      else none

/-- `re.match(r"(\d+)°(\d+)'(\d+)\"([..])", tok)`: anchored at the start
only, so trailing characters are allowed.  Returns the four captured
groups (as numbers and the hemisphere letter) and the unmatched
remainder of the token. -/
def dmsMatch (hemi : List Char) (s : List Char) : Option ((Nat × Nat × Nat × Char) × List Char) :=
  let d1 := takeDigits s
  if d1.1.isEmpty then none else
  match d1.2 with
  | '°' :: r2 =>
    let d2 := takeDigits r2
    if d2.1.isEmpty then none else
    match d2.2 with
    | '\'' :: r4 =>
      let d3 := takeDigits r4
      if d3.1.isEmpty then none else
      match d3.2 with
      | '"' :: h :: rest =>
        if h ∈ hemi then some ((digitsToNat d1.1, digitsToNat d2.1, digitsToNat d3.1, h), rest)
        else none
      | _ => none
    | _ => none
  | _ => none

/-- `True` iff the whole token is matched by the DMS pattern (no
trailing characters), i.e. `re.fullmatch` semantics. -/
def dmsFullMatch (hemi : List Char) (s : List Char) : Bool :=
  match dmsMatch hemi s with
  | some (_, rest) => rest.isEmpty
  | none => false

/-- `degrees + minutes/60 + seconds/3600`, the unsigned decimal value of
a DMS triple (lines 55 and 71 of the source). -/
def dmsValue (d m s : Nat) : ℚ := (d : ℚ) + (m : ℚ) / 60 + (s : ℚ) / 3600

/-- `CoordinateCollector.convert_dms_to_decimal` (lines 36-81): split on
whitespace, `re.match` the first token against latitude (`N`/`S`) and
the second against longitude (`E`/`W`), negate for `S`/`W`; any raised
error is caught and `None` returned. -/
def convert_dms_to_decimal (coord_string : String) : Option (ℚ × ℚ) :=
  match splitWs coord_string.data with
  | lat_part :: lon_part :: _ =>
    match dmsMatch ['N', 'S'] lat_part with
    | none => none
    | some ((latd, latm, lats, lat_dir), _) =>
      let lat_decimal := dmsValue latd latm lats
      let lat_decimal := if lat_dir = 'S' then -lat_decimal else lat_decimal
      match dmsMatch ['E', 'W'] lon_part with
      | none => none
      | some ((lond, lonm, lons, lon_dir), _) =>
        let lon_decimal := dmsValue lond lonm lons
        let lon_decimal := if lon_dir = 'W' then -lon_decimal else lon_decimal
        some (lat_decimal, lon_decimal)
  | _ => none

/-- One token `D°M'S"H` of the DMS format, with the degree, minute and
second numerals given as digit strings (leading zeros allowed, as in
`96°07'32"W`). -/
def dmsTok (dd mm ss : List Char) (h : Char) : List Char :=
  dd ++ ('°' :: (mm ++ ('\'' :: (ss ++ ('"' :: [h])))))

/-- The full input string `D1°M1'S1"H1 D2°M2'S2"H2` of the DMS
format. -/
def dmsString (d1 m1 s1 : List Char) (h1 : Char) (d2 m2 s2 : List Char) (h2 : Char) : String :=
  String.mk (dmsTok d1 m1 s1 h1 ++ (' ' :: dmsTok d2 m2 s2 h2))

/-- The format-dispatch test of `parse_coordinate_input` (line 90) on a
character list: `'°' in s and "'" in s and '"' in s`. -/
def hasDmsMarkersL (l : List Char) : Bool :=
  l.contains '°' && l.contains '\'' && l.contains '"'

/-- The format-dispatch test of `parse_coordinate_input` (line 90). -/
def hasDmsMarkers (s : String) : Bool := hasDmsMarkersL s.data

/-- `CoordinateCollector.parse_coordinate_input` (lines 83-139).  The
two `input()` prompts of the interactive branches are passed as the
`promptType`/`promptDesc` parameters.  Returns
`(lat, lon, coord_type, description)`, or `none` for a rejected
input. -/
def parse_coordinate_input (user_input promptType promptDesc : String) :
    Option (ℚ × ℚ × String × String) :=
  if hasDmsMarkers user_input then
    match convert_dms_to_decimal user_input with
    | some (lat, lon) =>
      let coord_type := String.mk (stripChars promptType.data)
      let d0 := stripChars promptDesc.data
      let description :=
        if d0.isEmpty then "Coord_" ++ fmt4 lat ++ "_" ++ fmt4 lon else String.mk d0
      some (lat, lon, coord_type, description)
    | none => none
  else
    match splitComma user_input.data with
    | p0 :: p1 :: p2 :: rest =>
      match pyFloat (String.mk (stripChars p0)) with
      | none => none
      | some lat =>
        match pyFloat (String.mk (stripChars p1)) with
        | none => none
        | some lon =>
          let coord_type := String.mk (stripChars p2)
          let description :=
            match rest with
            | p3 :: _ => String.mk (stripChars p3)
            | [] => "Coord_" ++ pyRepr lat ++ "_" ++ pyRepr lon
          some (lat, lon, coord_type, description)
    | [p0, p1] =>
      match pyFloat (String.mk (stripChars p0)) with
      | none => none
      | some lat =>
        match pyFloat (String.mk (stripChars p1)) with
        | none => none
        | some lon =>
          let coord_type := String.mk (stripChars promptType.data)
          let d0 := stripChars promptDesc.data
          let description :=
            if d0.isEmpty then "Coord_" ++ fmt4 lat ++ "_" ++ fmt4 lon else String.mk d0
          some (lat, lon, coord_type, description)
    | _ => none

/-- Parsed JSON documents: the values `json.load`/`json.dump` exchange
with the file.  Objects are insertion-ordered association lists (Python
dicts); numbers are modelled as `ℚ` (the `int`/`float` distinction is
not needed by any claim). -/
inductive JVal where
  | jnull : JVal
  | jbool : Bool → JVal
  | jnum : ℚ → JVal
  | jstr : String → JVal
  | jarr : List JVal → JVal
  | jobj : List (String × JVal) → JVal

/-- Python dict subscript read `d[k]`: value at the key, `none` for a
raised `KeyError`. -/
def jGet : List (String × JVal) → String → Option JVal
  | [], _ => none
  | p :: ps, k => if p.1 = k then some p.2 else jGet ps k

/-- Python dict subscript write `d[k] = v`: replace in place if the key
exists, else append at the end (insertion order). -/
def jSet : List (String × JVal) → String → JVal → List (String × JVal)
  | [], k, v => [(k, v)]
  | p :: ps, k, v => if p.1 = k then (k, v) :: ps else p :: jSet ps k v

/-- The fields of a JSON object, `none` on any other value (a Python
`TypeError` on string subscription). -/
def JVal.asObj : JVal → Option (List (String × JVal))
  | .jobj fs => some fs
  | _ => none

/-- Python `len(...)`: defined on lists, strings and dicts, a raised
`TypeError` (`none`) otherwise. -/
def jLen : JVal → Option Nat
  | .jarr xs => some xs.length
  | .jstr s => some s.length
  | .jobj fs => some fs.length
  | _ => none

/-- The `coord_data` dict built by `add_coordinate` (lines 143-148). -/
def mkRecord (lat lon : ℚ) (description : String) : JVal :=
  .jobj [("lat", .jnum lat), ("lon", .jnum lon),
         ("description", .jstr description), ("captured", .jbool false)]

/-- Python `str.lower()` (ASCII; the category tokens are ASCII). -/
def pyLower (s : String) : String := String.mk (s.data.map Char.toLower)

/-- Accepted pool category tokens (line 150). -/
def poolAliases : List String := ["pool", "piscina", "p"]

/-- Accepted non-pool category tokens (line 153). -/
def noPoolAliases : List String := ["no_pool", "no_piscina", "n"]

/-- `CoordinateCollector.update_metadata` (lines 163-168): three dict
writes into `coordinates["metadata"]`, reading the lengths of the two
record lists; `now` stands for the `datetime.now()` timestamp string.
`none` models an uncaught `KeyError`/`TypeError` on a malformed
store. -/
def update_metadata (now : String) (s : JVal) : Option JVal :=
  match s.asObj with
  | none => none
  | some fs =>
    match jGet fs "metadata" with
    | some (.jobj ms) =>
      match (jGet fs "pools").bind jLen with
      | none => none
      | some lp =>
        match (jGet fs "no_pools").bind jLen with
        | none => none
        | some lnp =>
          let ms1 := jSet ms "total_pools" (.jnum lp)
          let ms2 := jSet ms1 "total_no_pools" (.jnum lnp)
          let ms3 := jSet ms2 "last_updated" (.jstr now)
          some (.jobj (jSet fs "metadata" (.jobj ms3)))
    | _ => none

/-- `CoordinateCollector.add_coordinate` (lines 141-161): dispatch on
the lowercased category token; append the record in place and refresh
the metadata on a recognized token, report failure (`false`) without
touching the store otherwise. -/
def add_coordinate (now : String) (lat lon : ℚ) (coord_type description : String)
    (s : JVal) : Option (JVal × Bool) :=
  let coord_data := mkRecord lat lon description
  if pyLower coord_type ∈ poolAliases then
    match s.asObj with
    | none => none
    | some fs =>
      match jGet fs "pools" with
      | some (.jarr ps) =>
        match update_metadata now (.jobj (jSet fs "pools" (.jarr (ps ++ [coord_data])))) with
        | none => none
        | some s2 => some (s2, true)
      | _ => none
  else if pyLower coord_type ∈ noPoolAliases then
    match s.asObj with
    | none => none
    | some fs =>
      match jGet fs "no_pools" with
      | some (.jarr ns) =>
        match update_metadata now (.jobj (jSet fs "no_pools" (.jarr (ns ++ [coord_data])))) with
        | none => none
        | some s2 => some (s2, true)
      | _ => none
  else
    some (s, false)

/-- The state of `coordinates.json` on disk. -/
inductive FileState where
  | absent : FileState
  | unparseable : FileState
  | parsed : JVal → FileState

/-- The collector's mutable state: the in-memory `self.coordinates`
dict and the JSON file. -/
structure CState where
  store : JVal
  file : FileState

/-- `CoordinateCollector.save_coordinates` (lines 170-179): dump the
whole store to the file; on an I/O error (modelled by
`writable = false`) the exception is caught, an error is reported
(result flag `false`) and nothing else happens. -/
def save_coordinates (writable : Bool) (st : CState) : CState × Bool :=
  if writable then ({ st with file := .parsed st.store }, true) else (st, false)

/-- `CoordinateCollector.load_existing` (lines 26-34): if the file
exists and its contents parse as JSON, the parsed document replaces the
in-memory store wholesale (the subsequent length report may raise on a
malformed document, but the `except` clause only prints — the
assignment stands); a missing file or a read/parse failure leaves the
store as it was. -/
def load_existing (st : CState) : CState :=
  match st.file with
  | .parsed v => { st with store := v }
  | _ => st

/-- The initial `self.coordinates` dict of `CoordinateCollector.__init__`
(lines 15-23). -/
def emptyFields : List (String × JVal) :=
  [("pools", .jarr []), ("no_pools", .jarr []),
   ("metadata", .jobj [("total_pools", .jnum 0), ("total_no_pools", .jnum 0),
                       ("last_updated", .jstr "")])]

/-- The freshly constructed store. -/
def emptyStore : JVal := .jobj emptyFields

/-- `CoordinateCollector.__init__` (lines 13-24): start from the empty
store, then `load_existing`. -/
def initState (f : FileState) : CState := load_existing ⟨emptyStore, f⟩

/-- A sequence of `add_coordinate` calls
`(now, lat, lon, coord_type, description)`, threaded through the
store. -/
def runAdds : List (String × ℚ × ℚ × String × String) → JVal → Option JVal
  | [], s => some s
  | (now, lat, lon, t, d) :: ops, s =>
    match add_coordinate now lat lon t d s with
    | none => none
    | some (s', _) => runAdds ops s'

/-- The `pools` list of a store, when the store has the expected
shape. -/
def poolsOf (s : JVal) : Option (List JVal) :=
  match s.asObj with
  | some fs =>
    match jGet fs "pools" with
    | some (.jarr l) => some l
    | _ => none
  | none => none

/-- The `no_pools` list of a store, when the store has the expected
shape. -/
def noPoolsOf (s : JVal) : Option (List JVal) :=
  match s.asObj with
  | some fs =>
    match jGet fs "no_pools" with
    | some (.jarr l) => some l
    | _ => none
  | none => none

/-- A metadata field of a store, when the store has the expected
shape. -/
def metaGet (s : JVal) (k : String) : Option JVal :=
  match s.asObj with
  | some fs =>
    match jGet fs "metadata" with
    | some (.jobj ms) => jGet ms k
    | _ => none
  | none => none

/-- The spec invariant: the store has the expected shape and
`metadata.total_pools`/`metadata.total_no_pools` equal the list
lengths. -/
def storeInv (s : JVal) : Prop :=
  ∃ fs ps ns ms, s = .jobj fs ∧
    jGet fs "pools" = some (.jarr ps) ∧
    jGet fs "no_pools" = some (.jarr ns) ∧
    jGet fs "metadata" = some (.jobj ms) ∧
    jGet ms "total_pools" = some (.jnum (ps.length : ℚ)) ∧
    jGet ms "total_no_pools" = some (.jnum (ns.length : ℚ))

/-- A stored metadata dict carrying the capture driver's extra fields
(`last_capture`, `capture_completed`), used as a concrete test state. -/
def c2Meta : List (String × JVal) :=
  [("total_pools", .jnum 0), ("total_no_pools", .jnum 0), ("last_updated", .jstr "x"),
   ("last_capture", .jstr "2025-01-01"), ("capture_completed", .jbool true)]

/-- A concrete well-formed store whose metadata carries the capture
driver's extra fields. -/
def c2Fields : List (String × JVal) :=
  [("pools", .jarr []), ("no_pools", .jarr []), ("metadata", .jobj c2Meta)]

/-- The store obtained from `.jobj c2Fields` by
`add_coordinate "NOW" 1 2 "POOL" "d"`. -/
def c2Result : JVal :=
  .jobj [("pools", .jarr [mkRecord 1 2 "d"]), ("no_pools", .jarr []),
         ("metadata", .jobj [("total_pools", .jnum 1), ("total_no_pools", .jnum 0),
            ("last_updated", .jstr "NOW"), ("last_capture", .jstr "2025-01-01"),
            ("capture_completed", .jbool true)])]

/-- A concrete interactive session: two pool records then one non-pool
record. -/
def c3Ops : List (String × ℚ × ℚ × String × String) :=
  [("T1", 1, 2, "pool", "a"), ("T2", 3, 4, "pool", "b"), ("T3", 5, 6, "no_pool", "c")]

/-- The store produced by running `c3Ops` from the fresh store. -/
def c3Store : JVal :=
  .jobj [("pools", .jarr [mkRecord 1 2 "a", mkRecord 3 4 "b"]),
         ("no_pools", .jarr [mkRecord 5 6 "c"]),
         ("metadata", .jobj [("total_pools", .jnum 2), ("total_no_pools", .jnum 1),
            ("last_updated", .jstr "T3")])]

/-- A syntactically valid JSON document whose metadata counter disagrees
with its (empty) pools list: `total_pools` is 5 while `pools` has no
records. -/
def vBad : JVal :=
  .jobj [("pools", .jarr []), ("no_pools", .jarr []),
         ("metadata", .jobj [("total_pools", .jnum 5), ("total_no_pools", .jnum 0),
            ("last_updated", .jstr "")])]

/-! ### Association-list lemmas -/

theorem jGet_jSet_self (fs : List (String × JVal)) (k : String) (v : JVal) :
    jGet (jSet fs k v) k = some v := by
  induction fs with
  | nil => simp [jGet, jSet]
  | cons p ps ih =>
    by_cases h : p.1 = k
    · simp [jGet, jSet, h]
    · simp only [jSet, if_neg h, jGet]
      exact ih

theorem jGet_jSet_ne (fs : List (String × JVal)) (k k' : String) (v : JVal)
    (h : k' ≠ k) : jGet (jSet fs k v) k' = jGet fs k' := by
  have hk : ¬ (k = k') := fun hh => h hh.symm
  induction fs with
  | nil => simp [jGet, jSet, hk]
  | cons p ps ih =>
    by_cases hp : p.1 = k
    · subst hp
      simp only [jSet, if_pos rfl, jGet, if_neg hk]
    · simp only [jSet, if_neg hp, jGet]
      by_cases hq : p.1 = k'
      · simp [hq]
      · rw [if_neg hq, if_neg hq]
        exact ih

/-! ### Digit-character and numeral lemmas -/

theorem digitVal_digitChar {d : Nat} (h : d < 10) : digitVal (Nat.digitChar d) = d := by
  interval_cases d <;> rfl

theorem isDigit_digitChar {d : Nat} (h : d < 10) : (Nat.digitChar d).isDigit = true := by
  interval_cases d <;> rfl

theorem not_ws_digitChar {d : Nat} (h : d < 10) : (Nat.digitChar d).isWhitespace = false := by
  interval_cases d <;> rfl

theorem mem_natDigitsAux {fuel n : Nat} {c : Char} (h : c ∈ natDigitsAux fuel n) :
    ∃ d, d < 10 ∧ c = Nat.digitChar d := by
  induction fuel generalizing n with
  | zero => simp [natDigitsAux] at h
  | succ fuel ih =>
    rw [natDigitsAux] at h
    by_cases hn : n = 0
    · simp [hn] at h
    · rw [if_neg hn, List.mem_append] at h
      rcases h with h | h
      · exact ih h
      · exact ⟨n % 10, Nat.mod_lt _ (by norm_num), by simpa using h⟩

theorem mem_natRepr {n : Nat} {c : Char} (h : c ∈ natRepr n) :
    ∃ d, d < 10 ∧ c = Nat.digitChar d := by
  rw [natRepr] at h
  by_cases hn : n = 0
  · exact ⟨0, by norm_num, by simpa [hn] using h⟩
  · exact mem_natDigitsAux (by simpa [hn] using h)

theorem natRepr_isDigit {n : Nat} {c : Char} (h : c ∈ natRepr n) : c.isDigit = true := by
  obtain ⟨d, hd, rfl⟩ := mem_natRepr h
  exact isDigit_digitChar hd

theorem natRepr_not_ws {n : Nat} {c : Char} (h : c ∈ natRepr n) : c.isWhitespace = false := by
  obtain ⟨d, hd, rfl⟩ := mem_natRepr h
  exact not_ws_digitChar hd

theorem natRepr_ne_nil (n : Nat) : natRepr n ≠ [] := by
  rw [natRepr]
  by_cases hn : n = 0
  · simp [hn]
  · rw [if_neg hn]
    cases n with
    | zero => exact absurd rfl hn
    | succ m => simp [natDigitsAux]

theorem digitsToNat_append_one (l : List Char) (c : Char) :
    digitsToNat (l ++ [c]) = 10 * digitsToNat l + digitVal c := by
  simp [digitsToNat, List.foldl_append]

theorem digitsToNat_natDigitsAux {fuel n : Nat} (h : n ≤ fuel) :
    digitsToNat (natDigitsAux fuel n) = n := by
  induction fuel generalizing n with
  | zero =>
    interval_cases n
    simp [natDigitsAux, digitsToNat]
  | succ fuel ih =>
    rw [natDigitsAux]
    by_cases hn : n = 0
    · simp [hn, digitsToNat]
    · rw [if_neg hn, digitsToNat_append_one, ih, digitVal_digitChar (Nat.mod_lt _ (by norm_num))]
      · omega
      · have h1 : n / 10 < n := Nat.div_lt_self (Nat.pos_of_ne_zero hn) (by norm_num)
        omega

theorem digitsToNat_natRepr (n : Nat) : digitsToNat (natRepr n) = n := by
  rw [natRepr]
  by_cases hn : n = 0
  · simp [hn, digitsToNat, digitVal]
  · rw [if_neg hn]
    exact digitsToNat_natDigitsAux le_rfl

/-! ### `takeDigits` lemmas -/

theorem takeDigits_append (ds : List Char) (c0 : Char) (r : List Char)
    (hds : ∀ c ∈ ds, c.isDigit = true) (hc0 : c0.isDigit = false) :
    takeDigits (ds ++ c0 :: r) = (ds, c0 :: r) := by
  induction ds with
  | nil => simp [takeDigits, hc0]
  | cons d ds ih =>
    have hd : d.isDigit = true := hds d (by simp)
    have ih' := ih (fun c hc => hds c (by simp [hc]))
    simp only [List.cons_append, takeDigits, hd, if_true, List.append_eq, ih']

/-! ### `splitWs` lemmas -/

theorem isEmpty_false_of_ne_nil {α : Type} {l : List α} (h : l ≠ []) : l.isEmpty = false := by
  cases l with
  | nil => exact absurd rfl h
  | cons a t => rfl

theorem splitWsAux_append_nonws {a : List Char} (rest acc : List Char)
    (h : ∀ c ∈ a, c.isWhitespace = false) :
    splitWsAux (a ++ rest) acc = splitWsAux rest (a.reverse ++ acc) := by
  induction a generalizing acc with
  | nil => simp
  | cons c cs ih =>
    have hc : c.isWhitespace = false := h c (by simp)
    simp only [List.cons_append, splitWsAux, hc, Bool.false_eq_true, if_false, List.append_eq]
    rw [ih (c :: acc) (fun x hx => h x (by simp [hx]))]
    simp

theorem splitWsAux_ws_head (c : Char) (cs acc : List Char)
    (hc : c.isWhitespace = true) (hacc : acc.isEmpty = false) :
    splitWsAux (c :: cs) acc = acc.reverse :: splitWsAux cs [] := by
  simp [splitWsAux, hc, hacc]

theorem splitWsAux_nil_acc (acc : List Char) (h : acc.isEmpty = false) :
    splitWsAux [] acc = [acc.reverse] := by
  simp [splitWsAux, h]

theorem splitWs_pair (t1 t2 : List Char)
    (h1 : ∀ c ∈ t1, c.isWhitespace = false) (h2 : ∀ c ∈ t2, c.isWhitespace = false)
    (n1 : t1 ≠ []) (n2 : t2 ≠ []) :
    splitWs (t1 ++ ' ' :: t2) = [t1, t2] := by
  have e1 := splitWsAux_append_nonws (' ' :: t2) [] h1
  rw [List.append_nil] at e1
  have e2 := splitWsAux_append_nonws ([] : List Char) [] h2
  simp only [List.append_nil] at e2
  rw [splitWs, e1, splitWsAux_ws_head ' ' t2 t1.reverse (by decide)
    (isEmpty_false_of_ne_nil (by simpa using n1)), List.reverse_reverse]
  rw [e2, splitWsAux_nil_acc _ (isEmpty_false_of_ne_nil (by simpa using n2)),
    List.reverse_reverse]


theorem not_ws_of_isDigit {c : Char} (h : c.isDigit = true) : c.isWhitespace = false := by
  rw [Char.isDigit] at h
  simp only [Bool.and_eq_true, decide_eq_true_eq] at h
  obtain ⟨h1, h2⟩ := h
  rw [Char.isWhitespace]
  simp only [Bool.or_eq_false_iff, decide_eq_false_iff_not]
  refine ⟨⟨⟨?_, ?_⟩, ?_⟩, ?_⟩ <;> rintro rfl <;> revert h1 h2 <;> decide

theorem dmsMatch_digits (hemi : List Char) (dd mm ss : List Char) (h : Char)
    (rest : List Char)
    (hD : ∀ c ∈ dd, c.isDigit = true) (hM : ∀ c ∈ mm, c.isDigit = true)
    (hS : ∀ c ∈ ss, c.isDigit = true)
    (nD : dd ≠ []) (nM : mm ≠ []) (nS : ss ≠ []) (hh : h ∈ hemi) :
    dmsMatch hemi (dd ++ ('°' :: (mm ++ ('\'' :: (ss ++ ('"' :: h :: rest)))))) =
      some ((digitsToNat dd, digitsToNat mm, digitsToNat ss, h), rest) := by
  have e1 := takeDigits_append dd '°' (mm ++ ('\'' :: (ss ++ ('"' :: h :: rest))))
    hD (by decide)
  have e2 := takeDigits_append mm '\'' (ss ++ ('"' :: h :: rest)) hM (by decide)
  have e3 := takeDigits_append ss '"' (h :: rest) hS (by decide)
  simp [dmsMatch, e1, e2, e3, isEmpty_false_of_ne_nil nD, isEmpty_false_of_ne_nil nM,
    isEmpty_false_of_ne_nil nS, hh]

theorem dmsTok_not_ws {dd mm ss : List Char} {h : Char}
    (hD : ∀ c ∈ dd, c.isDigit = true) (hM : ∀ c ∈ mm, c.isDigit = true)
    (hS : ∀ c ∈ ss, c.isDigit = true) (hws : h.isWhitespace = false) :
    ∀ c ∈ dmsTok dd mm ss h, c.isWhitespace = false := by
  intro c hc
  rw [dmsTok] at hc
  simp only [List.mem_append, List.mem_cons, List.mem_singleton, List.not_mem_nil,
    or_false] at hc
  rcases hc with hc | hc | hc | hc | hc | hc | hc
  · exact not_ws_of_isDigit (hD c hc)
  · subst hc; decide
  · exact not_ws_of_isDigit (hM c hc)
  · subst hc; decide
  · exact not_ws_of_isDigit (hS c hc)
  · subst hc; decide
  · subst hc; exact hws

theorem dmsTok_ne_nil (dd mm ss : List Char) (h : Char) (nD : dd ≠ []) :
    dmsTok dd mm ss h ≠ [] := by
  rw [dmsTok]
  intro hh
  rcases List.append_eq_nil.mp hh with ⟨he, _⟩
  exact nD he

/-- Claim C1: for every DMS input of the form `D1°M1'S1"H1 D2°M2'S2"H2`
with non-negative integer degrees, minutes and seconds (written as digit
strings), `H1 ∈ {N, S}` and `H2 ∈ {E, W}`, `convert_dms_to_decimal`
returns `latitude = D1 + M1/60 + S1/3600`, negated exactly when
`H1 = S`, and `longitude = D2 + M2/60 + S2/3600`, negated exactly when
`H2 = W`. -/
theorem C1_dms_parser_correct (d1 m1 s1 : List Char) (h1 : Char)
    (d2 m2 s2 : List Char) (h2 : Char)
    (hd1 : ∀ c ∈ d1, c.isDigit = true) (hm1 : ∀ c ∈ m1, c.isDigit = true)
    (hs1 : ∀ c ∈ s1, c.isDigit = true)
    (hd2 : ∀ c ∈ d2, c.isDigit = true) (hm2 : ∀ c ∈ m2, c.isDigit = true)
    (hs2 : ∀ c ∈ s2, c.isDigit = true)
    (nd1 : d1 ≠ []) (nm1 : m1 ≠ []) (ns1 : s1 ≠ [])
    (nd2 : d2 ≠ []) (nm2 : m2 ≠ []) (ns2 : s2 ≠ [])
    (hh1 : h1 = 'N' ∨ h1 = 'S') (hh2 : h2 = 'E' ∨ h2 = 'W') :
    convert_dms_to_decimal (dmsString d1 m1 s1 h1 d2 m2 s2 h2) =
      some
        (if h1 = 'S' then -dmsValue (digitsToNat d1) (digitsToNat m1) (digitsToNat s1)
         else dmsValue (digitsToNat d1) (digitsToNat m1) (digitsToNat s1),
         if h2 = 'W' then -dmsValue (digitsToNat d2) (digitsToNat m2) (digitsToNat s2)
         else dmsValue (digitsToNat d2) (digitsToNat m2) (digitsToNat s2)) := by
  have hws1 : h1.isWhitespace = false := by rcases hh1 with rfl | rfl <;> decide
  have hws2 : h2.isWhitespace = false := by rcases hh2 with rfl | rfl <;> decide
  have hsplit : splitWs (dmsString d1 m1 s1 h1 d2 m2 s2 h2).data =
      [dmsTok d1 m1 s1 h1, dmsTok d2 m2 s2 h2] := by
    have hdata : (dmsString d1 m1 s1 h1 d2 m2 s2 h2).data =
        dmsTok d1 m1 s1 h1 ++ (' ' :: dmsTok d2 m2 s2 h2) := rfl
    rw [hdata]
    exact splitWs_pair _ _ (dmsTok_not_ws hd1 hm1 hs1 hws1) (dmsTok_not_ws hd2 hm2 hs2 hws2)
      (dmsTok_ne_nil _ _ _ _ nd1) (dmsTok_ne_nil _ _ _ _ nd2)
  have hma : dmsMatch ['N', 'S'] (dmsTok d1 m1 s1 h1) =
      some ((digitsToNat d1, digitsToNat m1, digitsToNat s1, h1), []) :=
    dmsMatch_digits ['N', 'S'] d1 m1 s1 h1 [] hd1 hm1 hs1 nd1 nm1 ns1
      (by rcases hh1 with rfl | rfl <;> decide)
  have hmb : dmsMatch ['E', 'W'] (dmsTok d2 m2 s2 h2) =
      some ((digitsToNat d2, digitsToNat m2, digitsToNat s2, h2), []) :=
    dmsMatch_digits ['E', 'W'] d2 m2 s2 h2 [] hd2 hm2 hs2 nd2 nm2 ns2
      (by rcases hh2 with rfl | rfl <;> decide)
  simp [convert_dms_to_decimal, hsplit, hma, hmb]

/-- Witness for C1 at the spec's Example 1:
`"19°11'19\"N 96°07'32\"W" ↦ (19.188611…, -96.125555…)` exactly. -/
theorem C1_witness :
    (∀ c ∈ ['1', '9'], c.isDigit = true) ∧ (∀ c ∈ ['0', '7'], c.isDigit = true) ∧
    (('N' : Char) = 'N' ∨ ('N' : Char) = 'S') ∧ (('W' : Char) = 'E' ∨ ('W' : Char) = 'W') ∧
    convert_dms_to_decimal "19°11'19\"N 96°07'32\"W" =
      some (19 + 11 / 60 + 19 / 3600, -(96 + 7 / 60 + 32 / 3600)) := by
  refine ⟨by decide, by decide, Or.inl rfl, Or.inr rfl, ?_⟩
  have h := C1_dms_parser_correct ['1', '9'] ['1', '1'] ['1', '9'] 'N'
    ['9', '6'] ['0', '7'] ['3', '2'] 'W'
    (by decide) (by decide) (by decide) (by decide) (by decide) (by decide)
    (by decide) (by decide) (by decide) (by decide) (by decide) (by decide)
    (Or.inl rfl) (Or.inr rfl)
  have hstr : dmsString ['1', '9'] ['1', '1'] ['1', '9'] 'N' ['9', '6'] ['0', '7'] ['3', '2'] 'W'
      = "19°11'19\"N 96°07'32\"W" := by decide
  rw [hstr] at h
  have e1 : digitsToNat ['1', '9'] = 19 := by decide
  have e2 : digitsToNat ['1', '1'] = 11 := by decide
  have e3 : digitsToNat ['9', '6'] = 96 := by decide
  have e4 : digitsToNat ['0', '7'] = 7 := by decide
  have e5 : digitsToNat ['3', '2'] = 32 := by decide
  rw [h, if_neg (by decide), if_pos rfl, e1, e2, e3, e4, e5]
  norm_num [dmsValue]

/-- Claim C6 (amended): `convert_dms_to_decimal` succeeds exactly when
the input has at least two whitespace-separated tokens, the first token
begins with a match of `digits°digits'digits"` + `N`/`S` and the second
begins with a match of `digits°digits'digits"` + `E`/`W`; it fails
(returns `none`) in every other case.  Because the source uses
`re.match`, which anchors only at the start, trailing characters after
the hemisphere letter are allowed, so matching is of a token's start
rather than the exact token. -/
theorem C6_amended_match_iff (s : String) :
    (convert_dms_to_decimal s).isSome = true ↔
      ∃ p0 p1 rest, splitWs s.data = p0 :: p1 :: rest ∧
        (dmsMatch ['N', 'S'] p0).isSome = true ∧ (dmsMatch ['E', 'W'] p1).isSome = true := by
  rcases hs : splitWs s.data with _ | ⟨p0, ps⟩
  · simp [convert_dms_to_decimal, hs]
  · rcases ps with _ | ⟨p1, rest⟩
    · simp [convert_dms_to_decimal, hs]
    · rcases hm0 : dmsMatch ['N', 'S'] p0 with _ | ⟨⟨⟨a, b, c, hch⟩, r⟩⟩
      · simp [convert_dms_to_decimal, hs, hm0]
      · rcases hm1 : dmsMatch ['E', 'W'] p1 with _ | ⟨⟨⟨a2, b2, c2, hch2⟩, r2⟩⟩
        · simp [convert_dms_to_decimal, hs, hm0, hm1]
        · simp only [convert_dms_to_decimal, hs, hm0, hm1]
          constructor
          · intro _
            exact ⟨p0, p1, rest, rfl, by simp [hm0], by simp [hm1]⟩
          · intro _
            rfl

/-- Counterexample for C6: the latitude token `19°11'19"NX` does not
match the pattern exactly (`re.fullmatch` would reject it), yet the
parser succeeds on it, because `re.match` accepts trailing characters
after the hemisphere letter. -/
theorem C6_counterexample :
    (convert_dms_to_decimal "19°11'19\"NX 96°07'32\"W").isSome = true ∧
    dmsFullMatch ['N', 'S'] "19°11'19\"NX".data = false :=
  ⟨rfl, by decide⟩

/-! ### `splitComma` / `joinComma` lemmas -/

theorem splitCommaAux_ne_nil (s acc : List Char) : splitCommaAux s acc ≠ [] := by
  induction s generalizing acc with
  | nil => simp [splitCommaAux]
  | cons c cs ih =>
    by_cases hc : c = ','
    · simp [splitCommaAux, hc]
    · simp only [splitCommaAux, if_neg hc]
      exact ih _

theorem joinComma_cons_of_ne_nil (p : List Char) {ps : List (List Char)} (h : ps ≠ []) :
    joinComma (p :: ps) = p ++ ',' :: joinComma ps := by
  cases ps with
  | nil => exact absurd rfl h
  | cons q qs => rfl

theorem splitCommaAux_comma (cs acc : List Char) :
    splitCommaAux (',' :: cs) acc = acc.reverse :: splitCommaAux cs [] := by
  simp [splitCommaAux]

theorem splitCommaAux_cons_ne (c : Char) (cs acc : List Char) (hc : c ≠ ',') :
    splitCommaAux (c :: cs) acc = splitCommaAux cs (c :: acc) := by
  simp [splitCommaAux, hc]

theorem joinComma_splitCommaAux (s : List Char) :
    ∀ acc, joinComma (splitCommaAux s acc) = acc.reverse ++ s := by
  induction s with
  | nil => intro acc; simp [splitCommaAux, joinComma]
  | cons c cs ih =>
    intro acc
    by_cases hc : c = ','
    · subst hc
      rw [splitCommaAux_comma, joinComma_cons_of_ne_nil _ (splitCommaAux_ne_nil cs []), ih []]
      simp
    · rw [splitCommaAux_cons_ne c cs acc hc, ih (c :: acc)]
      simp

theorem joinComma_splitComma (s : List Char) : joinComma (splitComma s) = s := by
  rw [splitComma, joinComma_splitCommaAux]
  simp

theorem splitCommaAux_no_comma (s : List Char) :
    ∀ acc, (∀ c ∈ acc, c ≠ ',') → ∀ p ∈ splitCommaAux s acc, ∀ c ∈ p, c ≠ ',' := by
  induction s with
  | nil =>
    intro acc hacc p hp c hc
    simp only [splitCommaAux, List.mem_singleton] at hp
    subst hp
    exact hacc c (by simpa using hc)
  | cons d cs ih =>
    intro acc hacc p hp c hc
    by_cases hd : d = ','
    · subst hd
      rw [splitCommaAux_comma, List.mem_cons] at hp
      rcases hp with rfl | hp
      · exact hacc c (by simpa using hc)
      · exact ih [] (by simp) p hp c hc
    · rw [splitCommaAux_cons_ne d cs acc hd] at hp
      refine ih (d :: acc) ?_ p hp c hc
      intro x hx
      rcases List.mem_cons.mp hx with rfl | hx
      · exact hd
      · exact hacc x hx

theorem splitComma_no_comma (s : List Char) : ∀ p ∈ splitComma s, ∀ c ∈ p, c ≠ ',' :=
  splitCommaAux_no_comma s [] (by simp)

theorem splitCommaAux_append_nc (a : List Char) (rest acc : List Char)
    (h : ∀ c ∈ a, c ≠ ',') :
    splitCommaAux (a ++ rest) acc = splitCommaAux rest (a.reverse ++ acc) := by
  induction a generalizing acc with
  | nil => simp
  | cons c cs ih =>
    have hc : c ≠ ',' := h c (by simp)
    simp only [List.cons_append, splitCommaAux, if_neg hc, List.append_eq]
    rw [ih (c :: acc) (fun x hx => h x (by simp [hx]))]
    simp

theorem splitComma_joinComma (l : List (List Char)) (hl : l ≠ [])
    (h : ∀ p ∈ l, ∀ c ∈ p, c ≠ ',') : splitComma (joinComma l) = l := by
  induction l with
  | nil => exact absurd rfl hl
  | cons p ps ih =>
    cases ps with
    | nil =>
      rw [show joinComma [p] = p from rfl, splitComma]
      have hstep := splitCommaAux_append_nc p [] [] (h p (by simp))
      rw [List.append_nil] at hstep
      rw [hstep]
      simp [splitCommaAux]
    | cons q qs =>
      rw [joinComma_cons_of_ne_nil p (by simp), splitComma]
      rw [splitCommaAux_append_nc p (',' :: joinComma (q :: qs)) [] (h p (by simp))]
      rw [List.append_nil, splitCommaAux_comma, List.reverse_reverse]
      have hrec := ih (by simp) (fun x hx c hc => h x (by simp [hx]) c hc)
      rw [splitComma] at hrec
      rw [hrec]

theorem mem_joinComma_cons (c : Char) (p : List Char) (ps : List (List Char)) :
    c ∈ joinComma (p :: ps) ↔ c ∈ p ∨ (ps ≠ [] ∧ (c = ',' ∨ c ∈ joinComma ps)) := by
  cases ps with
  | nil => simp [joinComma]
  | cons q qs =>
    rw [joinComma_cons_of_ne_nil p (by simp)]
    simp [List.mem_append]

theorem mem_joinComma_take {c : Char} (k : Nat) (l : List (List Char))
    (h : c ∈ joinComma (l.take k)) : c ∈ joinComma l := by
  induction l generalizing k with
  | nil => simpa using h
  | cons p ps ih =>
    cases k with
    | zero => simp [joinComma] at h
    | succ k =>
      rw [List.take_succ_cons] at h
      rw [mem_joinComma_cons] at h ⊢
      rcases h with h | ⟨hne, h⟩
      · exact Or.inl h
      · have hps : ps ≠ [] := by
          intro hh
          subst hh
          simp at hne
        rcases h with h | h
        · exact Or.inr ⟨hps, Or.inl h⟩
        · exact Or.inr ⟨hps, Or.inr (ih k h)⟩

/-! ### Evaluating `parse_coordinate_input` -/

theorem hasDmsMarkersL_mono {s t : List Char} (hsub : ∀ c, c ∈ t → c ∈ s)
    (h : hasDmsMarkersL s = false) : hasDmsMarkersL t = false := by
  have conv : ∀ (l : List Char) (c : Char), (l.contains c = true) ↔ c ∈ l := fun l c => by simp
  cases hq : hasDmsMarkersL t with
  | false => rfl
  | true =>
    exfalso
    rw [hasDmsMarkersL, Bool.and_eq_true, Bool.and_eq_true] at hq
    obtain ⟨⟨h1, h2⟩, h3⟩ := hq
    have hs : hasDmsMarkersL s = true := by
      rw [hasDmsMarkersL, Bool.and_eq_true, Bool.and_eq_true]
      exact ⟨⟨(conv _ _).mpr (hsub _ ((conv _ _).mp h1)),
             (conv _ _).mpr (hsub _ ((conv _ _).mp h2))⟩,
             (conv _ _).mpr (hsub _ ((conv _ _).mp h3))⟩
    rw [hs] at h
    exact absurd h (by decide)

theorem parse_decimal_3 (input pt pd : String) (p0 p1 p2 : List Char) (la lo : ℚ)
    (hD : hasDmsMarkers input = false)
    (hsplit : splitComma input.data = [p0, p1, p2])
    (h0 : pyFloat (String.mk (stripChars p0)) = some la)
    (h1 : pyFloat (String.mk (stripChars p1)) = some lo) :
    parse_coordinate_input input pt pd =
      some (la, lo, String.mk (stripChars p2),
        "Coord_" ++ pyRepr la ++ "_" ++ pyRepr lo) := by
  rw [parse_coordinate_input, if_neg (by simp [hD]), hsplit]
  simp [h0, h1]

theorem parse_decimal_4plus (input pt pd : String) (p0 p1 p2 p3 : List Char)
    (rest : List (List Char)) (la lo : ℚ)
    (hD : hasDmsMarkers input = false)
    (hsplit : splitComma input.data = p0 :: p1 :: p2 :: p3 :: rest)
    (h0 : pyFloat (String.mk (stripChars p0)) = some la)
    (h1 : pyFloat (String.mk (stripChars p1)) = some lo) :
    parse_coordinate_input input pt pd =
      some (la, lo, String.mk (stripChars p2), String.mk (stripChars p3)) := by
  rw [parse_coordinate_input, if_neg (by simp [hD]), hsplit]
  simp [h0, h1]

theorem parse_decimal_3plus_badfloat (input pt pd : String) (p0 p1 p2 : List Char)
    (rest : List (List Char))
    (hD : hasDmsMarkers input = false)
    (hsplit : splitComma input.data = p0 :: p1 :: p2 :: rest)
    (hbad : pyFloat (String.mk (stripChars p0)) = none ∨
      pyFloat (String.mk (stripChars p1)) = none) :
    parse_coordinate_input input pt pd = none := by
  rw [parse_coordinate_input, if_neg (by simp [hD]), hsplit]
  rcases hbad with hb | hb
  · simp [hb]
  · rcases hf : pyFloat (String.mk (stripChars p0)) with _ | la
    · simp [hf]
    · simp [hf, hb]

theorem parse_decimal_2 (input pt pd : String) (p0 p1 : List Char) (la lo : ℚ)
    (hD : hasDmsMarkers input = false)
    (hsplit : splitComma input.data = [p0, p1])
    (h0 : pyFloat (String.mk (stripChars p0)) = some la)
    (h1 : pyFloat (String.mk (stripChars p1)) = some lo) :
    parse_coordinate_input input pt pd =
      some (la, lo, String.mk (stripChars pt.data),
        if (stripChars pd.data).isEmpty then "Coord_" ++ fmt4 la ++ "_" ++ fmt4 lo
        else String.mk (stripChars pd.data)) := by
  rw [parse_coordinate_input, if_neg (by simp [hD]), hsplit]
  simp [h0, h1]

theorem parse_decimal_2_badfloat (input pt pd : String) (p0 p1 : List Char)
    (hD : hasDmsMarkers input = false)
    (hsplit : splitComma input.data = [p0, p1])
    (hbad : pyFloat (String.mk (stripChars p0)) = none ∨
      pyFloat (String.mk (stripChars p1)) = none) :
    parse_coordinate_input input pt pd = none := by
  rw [parse_coordinate_input, if_neg (by simp [hD]), hsplit]
  rcases hbad with hb | hb
  · simp [hb]
  · rcases hf : pyFloat (String.mk (stripChars p0)) with _ | la
    · simp [hf]
    · simp [hf, hb]

theorem parse_decimal_short (input pt pd : String) (p0 : List Char)
    (hD : hasDmsMarkers input = false)
    (hsplit : splitComma input.data = [p0]) :
    parse_coordinate_input input pt pd = none := by
  rw [parse_coordinate_input, if_neg (by simp [hD]), hsplit]

theorem parse_dms_branch (input pt pd : String) (la lo : ℚ)
    (hD : hasDmsMarkers input = true)
    (hconv : convert_dms_to_decimal input = some (la, lo)) :
    parse_coordinate_input input pt pd =
      some (la, lo, String.mk (stripChars pt.data),
        if (stripChars pd.data).isEmpty then "Coord_" ++ fmt4 la ++ "_" ++ fmt4 lo
        else String.mk (stripChars pd.data)) := by
  rw [parse_coordinate_input, if_pos (by simp [hD]), hconv]

/-- Claim C8: for every comma-separated decimal input (one routed to the
decimal branch of `parse_coordinate_input`): with fewer than 2 fields it
fails; a non-float in either of the first two fields fails; with
exactly 3 fields the third field is taken as the category; with 4 or
more fields the fourth is the description and all later fields are
ignored — the result is identical to that of the same input truncated
to its first 4 fields. -/
theorem C8_decimal_field_semantics (input pt pd : String)
    (hD : hasDmsMarkers input = false) :
    ((splitComma input.data).length < 2 → parse_coordinate_input input pt pd = none)
    ∧ (∀ p0 p1 rest, splitComma input.data = p0 :: p1 :: rest →
        (pyFloat (String.mk (stripChars p0)) = none ∨
         pyFloat (String.mk (stripChars p1)) = none) →
        parse_coordinate_input input pt pd = none)
    ∧ (∀ p0 p1 p2 la lo, splitComma input.data = [p0, p1, p2] →
        pyFloat (String.mk (stripChars p0)) = some la →
        pyFloat (String.mk (stripChars p1)) = some lo →
        ∃ d, parse_coordinate_input input pt pd =
          some (la, lo, String.mk (stripChars p2), d))
    ∧ (∀ p0 p1 p2 p3 rest la lo,
        splitComma input.data = p0 :: p1 :: p2 :: p3 :: rest →
        pyFloat (String.mk (stripChars p0)) = some la →
        pyFloat (String.mk (stripChars p1)) = some lo →
        parse_coordinate_input input pt pd =
          some (la, lo, String.mk (stripChars p2), String.mk (stripChars p3))
        ∧ parse_coordinate_input
            (String.mk (joinComma ((splitComma input.data).take 4))) pt pd =
          parse_coordinate_input input pt pd) := by
  refine ⟨?_, ?_, ?_, ?_⟩
  · intro hlen
    rcases hl : splitComma input.data with _ | ⟨p0, _ | ⟨p1, rest⟩⟩
    · rw [parse_coordinate_input, if_neg (by simp [hD]), hl]
    · exact parse_decimal_short input pt pd p0 hD hl
    · rw [hl] at hlen
      simp at hlen
      omega
  · intro p0 p1 rest hl hbad
    rcases rest with _ | ⟨p2, rest⟩
    · exact parse_decimal_2_badfloat input pt pd p0 p1 hD hl hbad
    · exact parse_decimal_3plus_badfloat input pt pd p0 p1 p2 rest hD hl hbad
  · intro p0 p1 p2 la lo hl h0 h1
    exact ⟨_, parse_decimal_3 input pt pd p0 p1 p2 la lo hD hl h0 h1⟩
  · intro p0 p1 p2 p3 rest la lo hl h0 h1
    have hmain := parse_decimal_4plus input pt pd p0 p1 p2 p3 rest la lo hD hl h0 h1
    refine ⟨hmain, ?_⟩
    have htake4 : (splitComma input.data).take 4 = [p0, p1, p2, p3] := by
      rw [hl]
      rfl
    have hsub : ∀ c, c ∈ joinComma ((splitComma input.data).take 4) → c ∈ input.data := by
      intro c hc
      have hmem := mem_joinComma_take 4 (splitComma input.data) hc
      rw [joinComma_splitComma] at hmem
      exact hmem
    have hDt : hasDmsMarkers (String.mk (joinComma ((splitComma input.data).take 4))) = false :=
      hasDmsMarkersL_mono hsub hD
    have hnc : ∀ p ∈ (splitComma input.data).take 4, ∀ c ∈ p, c ≠ ',' := fun p hp =>
      splitComma_no_comma input.data p (List.take_subset _ _ hp)
    have hsplitT :
        splitComma (String.mk (joinComma ((splitComma input.data).take 4))).data =
          p0 :: p1 :: p2 :: p3 :: [] := by
      have hjs := splitComma_joinComma ((splitComma input.data).take 4)
        (by rw [htake4]; simp) hnc
      rw [htake4] at hjs
      rw [show (String.mk (joinComma ((splitComma input.data).take 4))).data =
        joinComma ((splitComma input.data).take 4) from rfl, htake4]
      exact hjs
    have htrunc := parse_decimal_4plus
      (String.mk (joinComma ((splitComma input.data).take 4))) pt pd
      p0 p1 p2 p3 [] la lo hDt hsplitT h0 h1
    rw [htrunc, hmain]

/-! ### Concrete evaluation facts for floats and their rendering -/

theorem num_den_of_div (q : ℚ) (a b : ℤ) (hb0 : 0 < b)
    (hcop : Nat.Coprime a.natAbs b.natAbs) (hq : q = (a : ℚ) / (b : ℚ)) :
    q.num = a ∧ (q.den : ℤ) = b := by
  subst hq
  exact ⟨Rat.num_div_eq_of_coprime hb0 hcop, Rat.den_div_eq_of_coprime hb0 hcop⟩

theorem pyFloat_1 : pyFloat "1" = some 1 := by
  rw [show pyFloat "1" = some (1 * ((digitsToNat ['1'] : ℕ) : ℚ)) from rfl,
    show digitsToNat ['1'] = 1 from rfl]
  norm_num

theorem pyFloat_2 : pyFloat "2" = some 2 := by
  rw [show pyFloat "2" = some (1 * ((digitsToNat ['2'] : ℕ) : ℚ)) from rfl,
    show digitsToNat ['2'] = 2 from rfl]
  norm_num

theorem pyFloat_9 : pyFloat "9" = some 9 := by
  rw [show pyFloat "9" = some (1 * ((digitsToNat ['9'] : ℕ) : ℚ)) from rfl,
    show digitsToNat ['9'] = 9 from rfl]
  norm_num

theorem pyFloat_500 : pyFloat "500" = some 500 := by
  rw [show pyFloat "500" = some (1 * ((digitsToNat ['5','0','0'] : ℕ) : ℚ)) from rfl,
    show digitsToNat ['5','0','0'] = 500 from rfl]
  norm_num

theorem pyFloat_1000 : pyFloat "1000" = some 1000 := by
  rw [show pyFloat "1000" = some (1 * ((digitsToNat ['1','0','0','0'] : ℕ) : ℚ)) from rfl,
    show digitsToNat ['1','0','0','0'] = 1000 from rfl]
  norm_num

theorem pyFloat_2000 : pyFloat "2000" = some 2000 := by
  rw [show pyFloat "2000" = some (1 * ((digitsToNat ['2','0','0','0'] : ℕ) : ℚ)) from rfl,
    show digitsToNat ['2','0','0','0'] = 2000 from rfl]
  norm_num

theorem pyFloat_191738 : pyFloat "19.1738" = some (95869 / 5000 : ℚ) := by
  rw [show pyFloat "19.1738" = some (1 * ((digitsToNat ['1','9'] : ℚ) +
    (digitsToNat ['1','7','3','8'] : ℚ) / (10 ^ (4:ℕ) : ℚ))) from rfl]
  rw [show digitsToNat ['1','9'] = 19 from rfl, show digitsToNat ['1','7','3','8'] = 1738 from rfl]
  norm_num

theorem pyFloat_neg961342 : pyFloat "-96.1342" = some (-480671 / 5000 : ℚ) := by
  rw [show pyFloat "-96.1342" = some ((-1) * ((digitsToNat ['9','6'] : ℚ) +
    (digitsToNat ['1','3','4','2'] : ℚ) / (10 ^ (4:ℕ) : ℚ))) from rfl]
  rw [show digitsToNat ['9','6'] = 96 from rfl, show digitsToNat ['1','3','4','2'] = 1342 from rfl]
  norm_num

theorem pyRepr_one : pyRepr 1 = "1.0" := rfl

theorem pyRepr_two : pyRepr 2 = "2.0" := rfl

theorem pyRepr_nine : pyRepr 9 = "9.0" := rfl

theorem pyRepr_fivehundred : pyRepr 500 = "500.0" := rfl

theorem pyRepr_thousand : pyRepr 1000 = "1000.0" := rfl

theorem pyRepr_twothousand : pyRepr 2000 = "2000.0" := rfl

theorem pyFloat_7 : pyFloat "7" = some 7 := by
  rw [show pyFloat "7" = some (1 * ((digitsToNat ['7'] : ℕ) : ℚ)) from rfl,
    show digitsToNat ['7'] = 7 from rfl]
  norm_num

theorem pyFloat_300 : pyFloat "300" = some 300 := by
  rw [show pyFloat "300" = some (1 * ((digitsToNat ['3','0','0'] : ℕ) : ℚ)) from rfl,
    show digitsToNat ['3','0','0'] = 300 from rfl]
  norm_num

theorem pyRepr_seven : pyRepr 7 = "7.0" := rfl

theorem pyRepr_threehundred : pyRepr 300 = "300.0" := rfl

theorem pyRepr_191738 : pyRepr (95869 / 5000 : ℚ) = "19.1738" := by
  obtain ⟨hn, hd⟩ := num_den_of_div (95869 / 5000 : ℚ) 95869 5000 (by norm_num)
    (by norm_num) (by norm_num)
  have hd' : (95869 / 5000 : ℚ).den = 5000 := by exact_mod_cast hd
  rw [pyRepr, hn, hd']
  rfl

theorem pyRepr_neg961342 : pyRepr (-480671 / 5000 : ℚ) = "-96.1342" := by
  obtain ⟨hn, hd⟩ := num_den_of_div (-480671 / 5000 : ℚ) (-480671) 5000 (by norm_num)
    (by norm_num) (by norm_num)
  have hd' : (-480671 / 5000 : ℚ).den = 5000 := by exact_mod_cast hd
  rw [pyRepr, hn, hd']
  rfl

/-- Witness for C8 at the input `"1,2,pool,desc,extra"`: the fourth
field is the description, the fifth is ignored, and the result equals
that of the truncated input `"1,2,pool,desc"`. -/
theorem C8_witness :
    hasDmsMarkers "1,2,pool,desc,extra" = false ∧
    parse_coordinate_input "1,2,pool,desc,extra" "" "" = some (1, 2, "pool", "desc") ∧
    parse_coordinate_input "1,2,pool,desc" "" "" =
      parse_coordinate_input "1,2,pool,desc,extra" "" "" := by
  have h := (C8_decimal_field_semantics "1,2,pool,desc,extra" "" "" (by decide)).2.2.2
    ['1'] ['2'] "pool".data "desc".data ["extra".data] 1 2 (by decide) pyFloat_1 pyFloat_2
  exact ⟨by decide, h.1, h.2⟩

/-- Claim C5 (amended): when the description is omitted, the default is
a deterministic function of the parsed coordinate pair, but the
rendering differs by branch: the interactive branches (two-field
decimal input, and DMS input) round both coordinates to 4 decimal
places (`f"{x:.4f}"`), while the 3-field decimal branch uses Python's
default float formatting with no rounding (`f"Coord_{lat}_{lon}"`).
The spec's example still holds: `"19.1738,-96.1342,pool"` gets the
default description `Coord_19.1738_-96.1342`. -/
theorem C5_amended_default_description (input pt pd : String) :
    (∀ p0 p1 p2 la lo, hasDmsMarkers input = false →
      splitComma input.data = [p0, p1, p2] →
      pyFloat (String.mk (stripChars p0)) = some la →
      pyFloat (String.mk (stripChars p1)) = some lo →
      parse_coordinate_input input pt pd =
        some (la, lo, String.mk (stripChars p2), "Coord_" ++ pyRepr la ++ "_" ++ pyRepr lo))
    ∧ (∀ p0 p1 la lo, hasDmsMarkers input = false →
      splitComma input.data = [p0, p1] →
      pyFloat (String.mk (stripChars p0)) = some la →
      pyFloat (String.mk (stripChars p1)) = some lo →
      stripChars pd.data = [] →
      parse_coordinate_input input pt pd =
        some (la, lo, String.mk (stripChars pt.data), "Coord_" ++ fmt4 la ++ "_" ++ fmt4 lo))
    ∧ (∀ la lo, hasDmsMarkers input = true →
      convert_dms_to_decimal input = some (la, lo) →
      stripChars pd.data = [] →
      parse_coordinate_input input pt pd =
        some (la, lo, String.mk (stripChars pt.data), "Coord_" ++ fmt4 la ++ "_" ++ fmt4 lo)) := by
  refine ⟨?_, ?_, ?_⟩
  · intro p0 p1 p2 la lo hD hs h0 h1
    exact parse_decimal_3 input pt pd p0 p1 p2 la lo hD hs h0 h1
  · intro p0 p1 la lo hD hs h0 h1 hpd
    rw [parse_decimal_2 input pt pd p0 p1 la lo hD hs h0 h1, hpd]
    simp
  · intro la lo hD hc hpd
    rw [parse_dms_branch input pt pd la lo hD hc, hpd]
    simp

/-- Counterexample for C5: for the 3-field decimal input `"1,2,pool"`
the omitted description defaults to `Coord_1.0_2.0` (Python's default
float formatting), which differs from the rendering rounded to 4
decimal places (`"Coord_" ++ fmt4 1 ++ "_" ++ fmt4 2`, i.e.
`Coord_1.0000_2.0000`) that the claim asserts. -/
theorem C5_counterexample :
    parse_coordinate_input "1,2,pool" "" "" = some (1, 2, "pool", "Coord_1.0_2.0") ∧
    "Coord_1.0_2.0" ≠ "Coord_" ++ fmt4 1 ++ "_" ++ fmt4 2 := by
  constructor
  · have h := parse_decimal_3 "1,2,pool" "" "" ['1'] ['2'] "pool".data 1 2 (by decide)
      (by decide) pyFloat_1 pyFloat_2
    rw [h, pyRepr_one, pyRepr_two]
    rfl
  · decide

/-- Witness for C5 at the spec's Example 2: the input
`"19.1738,-96.1342,pool"` parses to a pool record at
`(19.1738, -96.1342)` with the default description
`Coord_19.1738_-96.1342`. -/
theorem C5_witness :
    hasDmsMarkers "19.1738,-96.1342,pool" = false ∧
    parse_coordinate_input "19.1738,-96.1342,pool" "" "" =
      some (95869 / 5000, -480671 / 5000, "pool", "Coord_19.1738_-96.1342") := by
  refine ⟨by decide, ?_⟩
  have h := (C5_amended_default_description "19.1738,-96.1342,pool" "" "").1
    "19.1738".data "-96.1342".data "pool".data (95869 / 5000 : ℚ) (-480671 / 5000 : ℚ)
    (by decide) (by decide) pyFloat_191738 pyFloat_neg961342
  rw [h, pyRepr_191738, pyRepr_neg961342]
  rfl

/-! ### Evaluating `update_metadata` and `add_coordinate` -/

theorem update_metadata_eval (now : String) (fs : List (String × JVal))
    (ps ns : List JVal) (ms : List (String × JVal))
    (hp : jGet fs "pools" = some (.jarr ps))
    (hn : jGet fs "no_pools" = some (.jarr ns))
    (hm : jGet fs "metadata" = some (.jobj ms)) :
    update_metadata now (.jobj fs) =
      some (.jobj (jSet fs "metadata" (.jobj
        (jSet (jSet (jSet ms "total_pools" (.jnum (ps.length : ℚ)))
          "total_no_pools" (.jnum (ns.length : ℚ))) "last_updated" (.jstr now))))) := by
  rw [update_metadata]
  simp [JVal.asObj, hp, hn, hm, jLen]

theorem add_coordinate_pool (now : String) (lat lon : ℚ) (t d : String)
    (fs : List (String × JVal)) (ps ns : List JVal) (ms : List (String × JVal))
    (hp : jGet fs "pools" = some (.jarr ps))
    (hn : jGet fs "no_pools" = some (.jarr ns))
    (hm : jGet fs "metadata" = some (.jobj ms))
    (ht : pyLower t ∈ poolAliases) :
    add_coordinate now lat lon t d (.jobj fs) =
      some (.jobj (jSet (jSet fs "pools" (.jarr (ps ++ [mkRecord lat lon d]))) "metadata"
        (.jobj (jSet (jSet (jSet ms "total_pools"
            (.jnum ((ps ++ [mkRecord lat lon d]).length : ℚ)))
          "total_no_pools" (.jnum (ns.length : ℚ))) "last_updated" (.jstr now)))), true) := by
  rw [add_coordinate, if_pos ht]
  have hp' : jGet (jSet fs "pools" (.jarr (ps ++ [mkRecord lat lon d]))) "pools" =
      some (.jarr (ps ++ [mkRecord lat lon d])) := jGet_jSet_self _ _ _
  have hn' : jGet (jSet fs "pools" (.jarr (ps ++ [mkRecord lat lon d]))) "no_pools" =
      some (.jarr ns) := by
    rw [jGet_jSet_ne _ _ _ _ (by decide)]
    exact hn
  have hm' : jGet (jSet fs "pools" (.jarr (ps ++ [mkRecord lat lon d]))) "metadata" =
      some (.jobj ms) := by
    rw [jGet_jSet_ne _ _ _ _ (by decide)]
    exact hm
  simp [JVal.asObj, hp, update_metadata_eval now _ _ _ _ hp' hn' hm']

theorem add_coordinate_nopool (now : String) (lat lon : ℚ) (t d : String)
    (fs : List (String × JVal)) (ps ns : List JVal) (ms : List (String × JVal))
    (hp : jGet fs "pools" = some (.jarr ps))
    (hn : jGet fs "no_pools" = some (.jarr ns))
    (hm : jGet fs "metadata" = some (.jobj ms))
    (ht1 : pyLower t ∉ poolAliases) (ht2 : pyLower t ∈ noPoolAliases) :
    add_coordinate now lat lon t d (.jobj fs) =
      some (.jobj (jSet (jSet fs "no_pools" (.jarr (ns ++ [mkRecord lat lon d]))) "metadata"
        (.jobj (jSet (jSet (jSet ms "total_pools" (.jnum (ps.length : ℚ)))
          "total_no_pools" (.jnum ((ns ++ [mkRecord lat lon d]).length : ℚ)))
          "last_updated" (.jstr now)))), true) := by
  rw [add_coordinate, if_neg ht1, if_pos ht2]
  have hp' : jGet (jSet fs "no_pools" (.jarr (ns ++ [mkRecord lat lon d]))) "pools" =
      some (.jarr ps) := by
    rw [jGet_jSet_ne _ _ _ _ (by decide)]
    exact hp
  have hn' : jGet (jSet fs "no_pools" (.jarr (ns ++ [mkRecord lat lon d]))) "no_pools" =
      some (.jarr (ns ++ [mkRecord lat lon d])) := jGet_jSet_self _ _ _
  have hm' : jGet (jSet fs "no_pools" (.jarr (ns ++ [mkRecord lat lon d]))) "metadata" =
      some (.jobj ms) := by
    rw [jGet_jSet_ne _ _ _ _ (by decide)]
    exact hm
  simp [JVal.asObj, hn, update_metadata_eval now _ _ _ _ hp' hn' hm']

theorem add_coordinate_invalid (now : String) (lat lon : ℚ) (t d : String) (s : JVal)
    (ht1 : pyLower t ∉ poolAliases) (ht2 : pyLower t ∉ noPoolAliases) :
    add_coordinate now lat lon t d s = some (s, false) := by
  rw [add_coordinate, if_neg ht1, if_neg ht2]

theorem pool_nopool_disjoint {x : String} (h1 : x ∈ poolAliases)
    (h2 : x ∈ noPoolAliases) : False := by
  rw [poolAliases] at h1
  simp only [List.mem_cons, List.mem_singleton, List.not_mem_nil, or_false] at h1
  rcases h1 with rfl | rfl | rfl <;> revert h2 <;> decide

theorem poolsOf_addPool (fs : List (String × JVal)) (l : List JVal) (M : JVal) :
    poolsOf (.jobj (jSet (jSet fs "pools" (.jarr l)) "metadata" M)) = some l := by
  simp only [poolsOf, JVal.asObj]
  rw [jGet_jSet_ne _ _ _ _ (by decide), jGet_jSet_self]

theorem noPoolsOf_addPool (fs : List (String × JVal)) (l : List JVal) (M : JVal)
    (ns : List JVal) (hn : jGet fs "no_pools" = some (.jarr ns)) :
    noPoolsOf (.jobj (jSet (jSet fs "pools" (.jarr l)) "metadata" M)) = some ns := by
  simp only [noPoolsOf, JVal.asObj]
  rw [jGet_jSet_ne _ _ _ _ (by decide), jGet_jSet_ne _ _ _ _ (by decide), hn]

theorem noPoolsOf_addNoPool (fs : List (String × JVal)) (l : List JVal) (M : JVal) :
    noPoolsOf (.jobj (jSet (jSet fs "no_pools" (.jarr l)) "metadata" M)) = some l := by
  simp only [noPoolsOf, JVal.asObj]
  rw [jGet_jSet_ne _ _ _ _ (by decide), jGet_jSet_self]

theorem poolsOf_addNoPool (fs : List (String × JVal)) (l : List JVal) (M : JVal)
    (ps : List JVal) (hp : jGet fs "pools" = some (.jarr ps)) :
    poolsOf (.jobj (jSet (jSet fs "no_pools" (.jarr l)) "metadata" M)) = some ps := by
  simp only [poolsOf, JVal.asObj]
  rw [jGet_jSet_ne _ _ _ _ (by decide), jGet_jSet_ne _ _ _ _ (by decide), hp]

theorem metaGet_set (X ms3 : List (String × JVal)) (k : String) :
    metaGet (.jobj (jSet X "metadata" (.jobj ms3))) k = jGet ms3 k := by
  simp only [metaGet, JVal.asObj]
  rw [jGet_jSet_self]

/-! ### The counts invariant -/

theorem storeInv_emptyStore : storeInv emptyStore :=
  ⟨emptyFields, [], [],
    [("total_pools", .jnum 0), ("total_no_pools", .jnum 0), ("last_updated", .jstr "")],
    rfl, rfl, rfl, rfl, rfl, rfl⟩

theorem add_preserves_storeInv (now : String) (lat lon : ℚ) (t d : String)
    (s s' : JVal) (b : Bool) (hinv : storeInv s)
    (hadd : add_coordinate now lat lon t d s = some (s', b)) : storeInv s' := by
  obtain ⟨fs, ps, ns, ms, rfl, hp, hn, hm, htp, htnp⟩ := hinv
  by_cases hpool : pyLower t ∈ poolAliases
  · rw [add_coordinate_pool now lat lon t d fs ps ns ms hp hn hm hpool] at hadd
    have hpair := Option.some.inj hadd
    rw [Prod.mk.injEq] at hpair
    obtain ⟨h1, -⟩ := hpair
    subst h1
    exact ⟨_, ps ++ [mkRecord lat lon d], ns,
      jSet (jSet (jSet ms "total_pools" (.jnum ((ps ++ [mkRecord lat lon d]).length : ℚ)))
        "total_no_pools" (.jnum (ns.length : ℚ))) "last_updated" (.jstr now),
      rfl,
      by rw [jGet_jSet_ne _ _ _ _ (by decide), jGet_jSet_self],
      by rw [jGet_jSet_ne _ _ _ _ (by decide), jGet_jSet_ne _ _ _ _ (by decide)]; exact hn,
      by rw [jGet_jSet_self],
      by rw [jGet_jSet_ne _ _ _ _ (by decide), jGet_jSet_ne _ _ _ _ (by decide), jGet_jSet_self],
      by rw [jGet_jSet_ne _ _ _ _ (by decide), jGet_jSet_self]⟩
  · by_cases hnp : pyLower t ∈ noPoolAliases
    · rw [add_coordinate_nopool now lat lon t d fs ps ns ms hp hn hm hpool hnp] at hadd
      have hpair := Option.some.inj hadd
      rw [Prod.mk.injEq] at hpair
      obtain ⟨h1, -⟩ := hpair
      subst h1
      exact ⟨_, ps, ns ++ [mkRecord lat lon d],
        jSet (jSet (jSet ms "total_pools" (.jnum (ps.length : ℚ)))
          "total_no_pools" (.jnum ((ns ++ [mkRecord lat lon d]).length : ℚ)))
          "last_updated" (.jstr now),
        rfl,
        by rw [jGet_jSet_ne _ _ _ _ (by decide), jGet_jSet_ne _ _ _ _ (by decide)]; exact hp,
        by rw [jGet_jSet_ne _ _ _ _ (by decide), jGet_jSet_self],
        by rw [jGet_jSet_self],
        by rw [jGet_jSet_ne _ _ _ _ (by decide), jGet_jSet_ne _ _ _ _ (by decide), jGet_jSet_self],
        by rw [jGet_jSet_ne _ _ _ _ (by decide), jGet_jSet_self]⟩
    · rw [add_coordinate_invalid now lat lon t d _ hpool hnp] at hadd
      have hpair := Option.some.inj hadd
      rw [Prod.mk.injEq] at hpair
      obtain ⟨h1, -⟩ := hpair
      subst h1
      exact ⟨fs, ps, ns, ms, rfl, hp, hn, hm, htp, htnp⟩

theorem runAdds_storeInv (ops : List (String × ℚ × ℚ × String × String)) :
    ∀ s s', storeInv s → runAdds ops s = some s' → storeInv s' := by
  induction ops with
  | nil =>
    intro s s' hinv h
    rw [runAdds] at h
    rw [Option.some.inj h] at hinv
    exact hinv
  | cons op ops ih =>
    intro s s' hinv h
    obtain ⟨now, lat, lon, t, d⟩ := op
    rw [runAdds] at h
    rcases hadd : add_coordinate now lat lon t d s with _ | ⟨s1, b⟩
    · rw [hadd] at h
      exact absurd h (by simp)
    · rw [hadd] at h
      exact ih s1 s' (add_preserves_storeInv now lat lon t d s s1 b hinv hadd) h

theorem storeInv_initState (f : FileState)
    (hf : ∀ v, f = FileState.parsed v → storeInv v) : storeInv (initState f).store := by
  cases f with
  | absent => exact storeInv_emptyStore
  | unparseable => exact storeInv_emptyStore
  | parsed v => exact hf v rfl

/-- Claim C3 (amended): the invariant
`metadata.total_pools = len(pools)` and
`metadata.total_no_pools = len(no_pools)` holds for the persisted store
after every save from a state that was constructed with an absent,
unreadable, or invariant-satisfying file and then modified only by
`add_coordinate` calls.  `save_coordinates` itself writes the in-memory
store verbatim (it does not recompute the counters), so a store loaded
from a nonconforming file is persisted as-is and can violate the
invariant (see the counterexample). -/
theorem C3_amended_invariant (f g : FileState)
    (ops : List (String × ℚ × ℚ × String × String)) (s : JVal)
    (hf : ∀ v, f = FileState.parsed v → storeInv v)
    (hrun : runAdds ops (initState f).store = some s) :
    (save_coordinates true ⟨s, g⟩).1.file = FileState.parsed s ∧ storeInv s :=
  ⟨rfl, runAdds_storeInv ops _ s (storeInv_initState f hf) hrun⟩

/-- Witness for C3 at the spec's Example 5: two pool adds and one
non-pool add from a fresh store, then save: the persisted store has
`total_pools = 2` and `total_no_pools = 1`. -/
theorem C3_witness :
    (∀ v, FileState.absent = FileState.parsed v → storeInv v) ∧
    runAdds c3Ops (initState FileState.absent).store = some c3Store ∧
    (save_coordinates true ⟨c3Store, FileState.absent⟩).1.file = FileState.parsed c3Store ∧
    storeInv c3Store ∧
    metaGet c3Store "total_pools" = some (.jnum 2) ∧
    metaGet c3Store "total_no_pools" = some (.jnum 1) := by
  have h := C3_amended_invariant FileState.absent FileState.absent c3Ops c3Store
    (fun v hv => by cases hv) rfl
  refine ⟨fun v hv => ?_, rfl, h.1, h.2, rfl, rfl⟩
  cases hv

/-- Counterexample for C3: a store loaded from a syntactically valid
file whose `total_pools` is 5 while `pools` is empty is persisted by
save exactly as loaded, so immediately after the save the persisted
store violates `total_pools = len(pools)`. -/
theorem C3_counterexample :
    (save_coordinates true (initState (FileState.parsed vBad))).1.file =
      FileState.parsed vBad ∧
    metaGet vBad "total_pools" = some (.jnum 5) ∧
    poolsOf vBad = some [] ∧
    ¬ storeInv vBad := by
  refine ⟨rfl, rfl, rfl, ?_⟩
  rintro ⟨fs, ps, ns, ms, hfs, hp, hn, hm, htp, htnp⟩
  have h1 : poolsOf vBad = some ps := by
    rw [hfs]
    simp [poolsOf, JVal.asObj, hp]
  rw [show poolsOf vBad = some [] from rfl] at h1
  have hps : ps = [] := (Option.some.inj h1).symm
  have h3 : metaGet vBad "total_pools" = some (.jnum (ps.length : ℚ)) := by
    rw [hfs]
    simp [metaGet, JVal.asObj, hm, htp]
  rw [hps, show metaGet vBad "total_pools" = some (.jnum 5) from rfl] at h3
  have h4 := Option.some.inj h3
  have h5 : (5 : ℚ) = (([] : List JVal).length : ℚ) := by injection h4
  norm_num at h5

/-- Claim C4: `add_coordinate` appends the record to the `pools` list
iff the lowercased category token is one of `pool`/`piscina`/`p`,
appends it to the `no_pools` list iff the lowercased token is one of
`no_pool`/`no_piscina`/`n`, and for any other token returns failure and
leaves the store completely unchanged (no record added to either
list). -/
theorem C4_category_dispatch (now : String) (lat lon : ℚ) (t d : String)
    (fs : List (String × JVal)) (ps ns : List JVal) (ms : List (String × JVal))
    (hp : jGet fs "pools" = some (.jarr ps))
    (hn : jGet fs "no_pools" = some (.jarr ns))
    (hm : jGet fs "metadata" = some (.jobj ms)) :
    ((∃ s', add_coordinate now lat lon t d (.jobj fs) = some (s', true) ∧
        poolsOf s' = some (ps ++ [mkRecord lat lon d]) ∧ noPoolsOf s' = some ns)
      ↔ pyLower t ∈ poolAliases)
    ∧ ((∃ s', add_coordinate now lat lon t d (.jobj fs) = some (s', true) ∧
        noPoolsOf s' = some (ns ++ [mkRecord lat lon d]) ∧ poolsOf s' = some ps)
      ↔ pyLower t ∈ noPoolAliases)
    ∧ (pyLower t ∉ poolAliases → pyLower t ∉ noPoolAliases →
        add_coordinate now lat lon t d (.jobj fs) = some (.jobj fs, false)) := by
  by_cases hpool : pyLower t ∈ poolAliases
  · have hadd := add_coordinate_pool now lat lon t d fs ps ns ms hp hn hm hpool
    refine ⟨⟨fun _ => hpool, fun _ =>
      ⟨_, hadd, poolsOf_addPool _ _ _, noPoolsOf_addPool _ _ _ ns hn⟩⟩, ⟨?_, ?_⟩,
      fun hc _ => absurd hpool hc⟩
    · rintro ⟨s', hs', hnps', hps'⟩
      rw [hadd] at hs'
      have hpair := Option.some.inj hs'
      rw [Prod.mk.injEq] at hpair
      obtain ⟨h1, -⟩ := hpair
      rw [← h1, noPoolsOf_addPool _ _ _ ns hn] at hnps'
      have hlist : ns = ns ++ [mkRecord lat lon d] := Option.some.inj hnps'
      have hlen := congrArg List.length hlist
      simp at hlen
    · intro hnp
      exact (pool_nopool_disjoint hpool hnp).elim
  · by_cases hnp : pyLower t ∈ noPoolAliases
    · have hadd := add_coordinate_nopool now lat lon t d fs ps ns ms hp hn hm hpool hnp
      refine ⟨⟨?_, fun hc => absurd hc hpool⟩, ⟨fun _ => hnp, fun _ =>
        ⟨_, hadd, noPoolsOf_addNoPool _ _ _, poolsOf_addNoPool _ _ _ ps hp⟩⟩,
        fun _ hc => absurd hnp hc⟩
      rintro ⟨s', hs', hps', hnps'⟩
      rw [hadd] at hs'
      have hpair := Option.some.inj hs'
      rw [Prod.mk.injEq] at hpair
      obtain ⟨h1, -⟩ := hpair
      rw [← h1, poolsOf_addNoPool _ _ _ ps hp] at hps'
      have hlist : ps = ps ++ [mkRecord lat lon d] := Option.some.inj hps'
      have hlen := congrArg List.length hlist
      simp at hlen
    · have hadd := add_coordinate_invalid now lat lon t d (.jobj fs) hpool hnp
      refine ⟨⟨?_, fun hc => absurd hc hpool⟩, ⟨?_, fun hc => absurd hc hnp⟩,
        fun _ _ => hadd⟩
      · rintro ⟨s', hs', -, -⟩
        rw [hadd] at hs'
        have hpair := Option.some.inj hs'
        rw [Prod.mk.injEq] at hpair
        exact absurd hpair.2 (by decide)
      · rintro ⟨s', hs', -, -⟩
        rw [hadd] at hs'
        have hpair := Option.some.inj hs'
        rw [Prod.mk.injEq] at hpair
        exact absurd hpair.2 (by decide)

/-- Witness for C4 at the spec's Example 4: the token `castle` is not a
recognized category, the call reports failure, and the store is
returned unchanged. -/
theorem C4_witness :
    jGet emptyFields "pools" = some (.jarr []) ∧
    jGet emptyFields "no_pools" = some (.jarr []) ∧
    pyLower "castle" ∉ poolAliases ∧ pyLower "castle" ∉ noPoolAliases ∧
    add_coordinate "T" 1 2 "castle" "x" emptyStore = some (emptyStore, false) := by
  refine ⟨rfl, rfl, by decide, by decide, ?_⟩
  exact (C4_category_dispatch "T" 1 2 "castle" "x" emptyFields [] []
    [("total_pools", .jnum 0), ("total_no_pools", .jnum 0), ("last_updated", .jstr "")]
    rfl rfl rfl).2.2 (by decide) (by decide)

/-- Claim C2: a successful `add_coordinate` followed by a save and a
load yields exactly the in-memory store that was saved: the same record
lists (hence the same counts and field values for every record), and
every metadata field the collector itself never writes — such as
`last_capture` and `capture_completed` — keeps the value it had before
the save. -/
theorem C2_roundtrip (now : String) (lat lon : ℚ) (t d : String) (f : FileState)
    (fs : List (String × JVal)) (ps ns : List JVal) (ms : List (String × JVal)) (s' : JVal)
    (hp : jGet fs "pools" = some (.jarr ps))
    (hn : jGet fs "no_pools" = some (.jarr ns))
    (hm : jGet fs "metadata" = some (.jobj ms))
    (hadd : add_coordinate now lat lon t d (.jobj fs) = some (s', true)) :
    (load_existing (save_coordinates true ⟨s', f⟩).1).store = s'
    ∧ poolsOf (load_existing (save_coordinates true ⟨s', f⟩).1).store = poolsOf s'
    ∧ noPoolsOf (load_existing (save_coordinates true ⟨s', f⟩).1).store = noPoolsOf s'
    ∧ ∀ k, k ≠ "total_pools" → k ≠ "total_no_pools" → k ≠ "last_updated" →
        metaGet (load_existing (save_coordinates true ⟨s', f⟩).1).store k = jGet ms k := by
  have hload : (load_existing (save_coordinates true ⟨s', f⟩).1).store = s' := rfl
  refine ⟨hload, by rw [hload], by rw [hload], ?_⟩
  intro k hk1 hk2 hk3
  rw [hload]
  by_cases hpool : pyLower t ∈ poolAliases
  · rw [add_coordinate_pool now lat lon t d fs ps ns ms hp hn hm hpool] at hadd
    have hpair := Option.some.inj hadd
    rw [Prod.mk.injEq] at hpair
    obtain ⟨h1, -⟩ := hpair
    rw [← h1, metaGet_set, jGet_jSet_ne _ _ _ _ hk3, jGet_jSet_ne _ _ _ _ hk2,
      jGet_jSet_ne _ _ _ _ hk1]
  · by_cases hnp : pyLower t ∈ noPoolAliases
    · rw [add_coordinate_nopool now lat lon t d fs ps ns ms hp hn hm hpool hnp] at hadd
      have hpair := Option.some.inj hadd
      rw [Prod.mk.injEq] at hpair
      obtain ⟨h1, -⟩ := hpair
      rw [← h1, metaGet_set, jGet_jSet_ne _ _ _ _ hk3, jGet_jSet_ne _ _ _ _ hk2,
        jGet_jSet_ne _ _ _ _ hk1]
    · rw [add_coordinate_invalid now lat lon t d _ hpool hnp] at hadd
      have hpair := Option.some.inj hadd
      rw [Prod.mk.injEq] at hpair
      exact absurd hpair.2 (by decide)

/-- Witness for C2: adding a pool record to a store whose metadata
carries the capture driver's fields, then saving and loading, returns
exactly the post-add store, with `last_capture` and
`capture_completed` intact. -/
theorem C2_witness :
    add_coordinate "NOW" 1 2 "POOL" "d" (.jobj c2Fields) = some (c2Result, true) ∧
    (load_existing (save_coordinates true ⟨c2Result, FileState.absent⟩).1).store = c2Result ∧
    metaGet (load_existing (save_coordinates true ⟨c2Result, FileState.absent⟩).1).store
      "last_capture" = some (.jstr "2025-01-01") ∧
    metaGet (load_existing (save_coordinates true ⟨c2Result, FileState.absent⟩).1).store
      "capture_completed" = some (.jbool true) := by
  have h := C2_roundtrip "NOW" 1 2 "POOL" "d" FileState.absent c2Fields [] [] c2Meta
    c2Result rfl rfl rfl rfl
  refine ⟨rfl, h.1, ?_, ?_⟩
  · rw [h.2.2.2 "last_capture" (by decide) (by decide) (by decide)]
    rfl
  · rw [h.2.2.2 "capture_completed" (by decide) (by decide) (by decide)]
    rfl

/-- Claim C7 (amended): a record entering the store through
`parse_coordinate_input` followed by `add_coordinate` carries exactly
the parsed latitude and longitude, whichever category list it lands in:
appended to `pools` for a pool category token and to `no_pools` for a
non-pool category token.  Neither function performs any range
validation, so pairs outside `[-90, 90] × [-180, 180]` are appended
unchanged. -/
theorem C7_amended_no_range_validation (input pt pd now : String) (la lo : ℚ)
    (t d : String) (fs : List (String × JVal)) (ps ns : List JVal)
    (ms : List (String × JVal))
    (_hparse : parse_coordinate_input input pt pd = some (la, lo, t, d))
    (hp : jGet fs "pools" = some (.jarr ps))
    (hn : jGet fs "no_pools" = some (.jarr ns))
    (hm : jGet fs "metadata" = some (.jobj ms)) :
    (pyLower t ∈ poolAliases →
      (add_coordinate now la lo t d (.jobj fs)).map (fun p => (poolsOf p.1, p.2)) =
        some (some (ps ++ [mkRecord la lo d]), true))
    ∧ (pyLower t ∉ poolAliases → pyLower t ∈ noPoolAliases →
      (add_coordinate now la lo t d (.jobj fs)).map (fun p => (noPoolsOf p.1, p.2)) =
        some (some (ns ++ [mkRecord la lo d]), true)) := by
  constructor
  · intro ht
    rw [add_coordinate_pool now la lo t d fs ps ns ms hp hn hm ht]
    simp [poolsOf_addPool]
  · intro ht1 ht2
    rw [add_coordinate_nopool now la lo t d fs ps ns ms hp hn hm ht1 ht2]
    simp [noPoolsOf_addNoPool]

/-- Counterexample for C7: the inputs `"1000,2000,pool"` and
`"1000,2000,no_pool"` parse with latitude 1000 and longitude 2000, far
outside `[-90, 90] × [-180, 180]`, and `add_coordinate` happily appends
the record to the respective list in both categories: no range
validation exists anywhere on the path into the store. -/
theorem C7_counterexample :
    parse_coordinate_input "1000,2000,pool" "" "" =
      some (1000, 2000, "pool", "Coord_1000.0_2000.0") ∧
    (add_coordinate "T" 1000 2000 "pool" "Coord_1000.0_2000.0" emptyStore).map
      (fun p => (poolsOf p.1, p.2)) =
      some (some [mkRecord 1000 2000 "Coord_1000.0_2000.0"], true) ∧
    parse_coordinate_input "1000,2000,no_pool" "" "" =
      some (1000, 2000, "no_pool", "Coord_1000.0_2000.0") ∧
    (add_coordinate "T" 1000 2000 "no_pool" "Coord_1000.0_2000.0" emptyStore).map
      (fun p => (noPoolsOf p.1, p.2)) =
      some (some [mkRecord 1000 2000 "Coord_1000.0_2000.0"], true) ∧
    ¬ ((-90 : ℚ) ≤ 1000 ∧ (1000 : ℚ) ≤ 90) ∧
    ¬ ((-180 : ℚ) ≤ 2000 ∧ (2000 : ℚ) ≤ 180) := by
  refine ⟨?_, rfl, ?_, rfl, by norm_num, by norm_num⟩
  · have h := parse_decimal_3 "1000,2000,pool" "" "" "1000".data "2000".data "pool".data
      1000 2000 (by decide) (by decide) pyFloat_1000 pyFloat_2000
    rw [h, pyRepr_thousand, pyRepr_twothousand]
    rfl
  · have h := parse_decimal_3 "1000,2000,no_pool" "" "" "1000".data "2000".data
      "no_pool".data 1000 2000 (by decide) (by decide) pyFloat_1000 pyFloat_2000
    rw [h, pyRepr_thousand, pyRepr_twothousand]
    rfl

/-- Witness for C7, covering both categories: the out-of-range latitude
500 enters `pools` through the `p` alias, and the out-of-range
longitude 300 enters `no_pools` through the `n` alias, each record
carrying exactly the parsed values. -/
theorem C7_witness :
    parse_coordinate_input "500,9,p" "" "" = some (500, 9, "p", "Coord_500.0_9.0") ∧
    jGet emptyFields "pools" = some (.jarr []) ∧
    jGet emptyFields "no_pools" = some (.jarr []) ∧
    pyLower "p" ∈ poolAliases ∧
    (add_coordinate "T" 500 9 "p" "Coord_500.0_9.0" (.jobj emptyFields)).map
      (fun p => (poolsOf p.1, p.2)) =
      some (some [mkRecord 500 9 "Coord_500.0_9.0"], true) ∧
    ¬ ((500 : ℚ) ≤ 90) ∧
    parse_coordinate_input "7,300,n" "" "" = some (7, 300, "n", "Coord_7.0_300.0") ∧
    pyLower "n" ∉ poolAliases ∧ pyLower "n" ∈ noPoolAliases ∧
    (add_coordinate "T" 7 300 "n" "Coord_7.0_300.0" (.jobj emptyFields)).map
      (fun p => (noPoolsOf p.1, p.2)) =
      some (some [mkRecord 7 300 "Coord_7.0_300.0"], true) ∧
    ¬ ((300 : ℚ) ≤ 180) := by
  have hps : parse_coordinate_input "500,9,p" "" "" = some (500, 9, "p", "Coord_500.0_9.0") := by
    have h := parse_decimal_3 "500,9,p" "" "" "500".data "9".data "p".data
      500 9 (by decide) (by decide) pyFloat_500 pyFloat_9
    rw [h, pyRepr_fivehundred, pyRepr_nine]
    rfl
  have hpn : parse_coordinate_input "7,300,n" "" "" = some (7, 300, "n", "Coord_7.0_300.0") := by
    have h := parse_decimal_3 "7,300,n" "" "" "7".data "300".data "n".data
      7 300 (by decide) (by decide) pyFloat_7 pyFloat_300
    rw [h, pyRepr_seven, pyRepr_threehundred]
    rfl
  have h1 := (C7_amended_no_range_validation "500,9,p" "" "" "T" 500 9 "p" "Coord_500.0_9.0"
    emptyFields [] []
    [("total_pools", .jnum 0), ("total_no_pools", .jnum 0), ("last_updated", .jstr "")]
    hps rfl rfl rfl).1 (by decide)
  have h2 := (C7_amended_no_range_validation "7,300,n" "" "" "T" 7 300 "n" "Coord_7.0_300.0"
    emptyFields [] []
    [("total_pools", .jnum 0), ("total_no_pools", .jnum 0), ("last_updated", .jstr "")]
    hpn rfl rfl rfl).2 (by decide) (by decide)
  exact ⟨hps, rfl, rfl, by decide, h1, by norm_num, hpn, by decide, by decide, h2, by norm_num⟩

/-- Claim C9: a failed save (file not writable) reports the failure and
leaves the entire in-memory state untouched, so retrying the save once
the problem is fixed persists exactly the same records with no data
re-entry. -/
theorem C9_save_failure_preserves_store (st : CState) :
    (save_coordinates false st).1 = st
    ∧ (save_coordinates false st).2 = false
    ∧ (save_coordinates true (save_coordinates false st).1).1.file =
        FileState.parsed st.store
    ∧ (save_coordinates true (save_coordinates false st).1).2 = true :=
  ⟨rfl, rfl, rfl, rfl⟩

/-- Claim C10: `load_existing` replaces the in-memory store wholesale by
whatever JSON document the file parses to — with no schema validation —
and falls back to the fresh empty store only when the file is absent or
unreadable/unparseable.  In particular a parsed document lacking the
`pools`/`no_pools` keys becomes the store as-is. -/
theorem C10_load_wholesale :
    (∀ v : JVal, (initState (FileState.parsed v)).store = v)
    ∧ (initState FileState.absent).store = emptyStore
    ∧ (initState FileState.unparseable).store = emptyStore
    ∧ (initState (FileState.parsed (.jobj [("foo", .jnull)]))).store =
        .jobj [("foo", .jnull)]
    ∧ JVal.jobj [("foo", .jnull)] ≠ emptyStore := by
  refine ⟨fun v => rfl, rfl, rfl, rfl, ?_⟩
  intro h
  injection h with h1
  injection h1 with h2 h3
  injection h2 with h4 h5
  exact absurd h4 (by decide)

/-- Witness for C6: a concrete instantiation of the success
characterization. -/
theorem C6_witness :
    (convert_dms_to_decimal "1°2'3\"N 4°5'6\"E").isSome = true := by
  rw [C6_amended_match_iff]
  exact ⟨"1°2'3\"N".data, "4°5'6\"E".data, [], by decide, by decide, by decide⟩
